import Mathlib

/-!
Verification of the pyacmecapture multi-probe capture pipeline.

This file shallowly embeds the capture-relevant parts of the
`pyacmecapture` repository and proves (or refutes) the specified
properties about them:

* the aggregation stage of `pyacmecapture.main` (time normalization,
  derived power channel, min/max/average statistics);
* `IIODeviceCaptureThread.configure_capture` and
  `IIODeviceCaptureThread.run` (from `iiodevicecapturethread.py`);
* the thread build/start phase of `pyacmecapture.main`;
* the per-slot operation wrappers of `IIOAcmeCape` (from
  `iioacmecape.py`), including Python list-indexing semantics for
  `self._slots[slot - 1]`.

Sample values are modelled as rationals (the Python code works on
numpy float arrays; every computation checked here is exact).
Python exceptions are modelled with an `Except` result type; a
wall-clock-bounded loop is modelled by the finite list of cycles the
loop executed.
-/

/-- Python exception kinds that the embedded code can raise. -/
inductive PyExc where
  | typeError
  | nameError
  | indexError
  | attributeError
  | probeError
deriving DecidableEq

/- ------------------------------------------------------------------ -/
/- Aggregation stage (pyacmecapture.py, main, lines 566-612)          -/
/- ------------------------------------------------------------------ -/

/-- Derived power channel, from `main`:
`np.multiply(data[i]["Vbat"]["samples"], data[i]["Ishunt"]["samples"])`
followed by `/= 1000.0` (lines 597-599). -/
def powerSamples (vbat ishunt : List ℚ) : List ℚ :=
  (List.zipWith (fun a b => a * b) vbat ishunt).map (fun p => p / 1000)

/-- `np.amin` on a one-dimensional array: the minimum of the samples.
Raises on an empty array, hence the `Option`. -/
def amin : List ℚ → Option ℚ
  | [] => Option.none
  | x :: xs => some (xs.foldl min x)

/-- `np.amax` on a one-dimensional array: the maximum of the samples.
Raises on an empty array, hence the `Option`. -/
def amax : List ℚ → Option ℚ
  | [] => Option.none
  | x :: xs => some (xs.foldl max x)

/-- `np.average` on a one-dimensional array: the unweighted arithmetic
mean. Undefined (NaN/warning) on an empty array, hence the `Option`. -/
def average : List ℚ → Option ℚ
  | [] => Option.none
  | x :: xs => some ((x :: xs).sum / ((x :: xs).length : ℚ))

/-- Time normalization, from `main` (lines 569-571):
`first_timestamp = data[i]["Time"]["samples"][0]` then
`data[i]["Time"]["samples"] -= first_timestamp`.
Indexing `[0]` raises on an empty array, hence the `Option`. -/
def normalizeTime : List ℚ → Option (List ℚ)
  | [] => Option.none
  | t0 :: ts => some ((t0 :: ts).map (fun t => t - t0))

/-- Voltage samples of the spec's concrete probe A scenario (mV). -/
def vbatA : List ℚ := [3700, 3700, 3700]

/-- Current samples of the spec's concrete probe A scenario (mA). -/
def ishuntA : List ℚ := [150, 150, 150]

/-- A statistics row is ordered: the row's min, avg and max exist and
satisfy min ≤ avg ≤ max. -/
def statRowOrdered (l : List ℚ) : Prop :=
  ∃ a m b, amin l = some a ∧ average l = some m ∧ amax l = some b ∧ a ≤ m ∧ m ≤ b

/- ------------------------------------------------------------------ -/
/- Capture thread run loop                                            -/
/- (iiodevicecapturethread.py, IIODeviceCaptureThread.run, 104-162)   -/
/- ------------------------------------------------------------------ -/

/-- The dictionary returned by a successful
`IIOAcmeProbe.read_capture_buffer` call: channel name, unit and scaled
samples (iioacmeprobe.py, lines 410-412). -/
structure ReadDict where
  channel : String
  unit : String
  samples : List ℚ
deriving DecidableEq

/-- The Python value the capture loop receives from
`IIOAcmeCape.read_capture_buffer`: the probe's dictionary, `None` (the
probe method caught a read error itself), or `False` (the cape-level
wrapper caught an exception). -/
inductive RdVal where
  | vdict (d : ReadDict)
  | vnone
  | vfalse
deriving DecidableEq

/-- The per-channel entry of `self._samples`: the nested dictionary
with keys "failed", "unit", "samples". -/
structure ChData where
  failed : Bool
  unit : String
  samples : List ℚ
deriving DecidableEq

/-- One iteration of the wall-clock-bounded `while` loop: the result
of the cycle's `refill_capture_buffer` call and, per channel, the
value returned by `read_capture_buffer`. A whole run is a list of
these (the loop executes finitely many cycles before
`elapsed_time >= duration`). -/
structure CaptureCycle where
  refill : Bool
  read : String → RdVal

/-- The state of `IIODeviceCaptureThread.run`: the `self._failed` flag
and the `self._samples` dictionary. The "slot", "channels" and
"duration" keys the source also stores in the dictionary are carried
as separate fields. -/
structure RunResult where
  slot : Nat
  duration : Nat
  channels : List String
  failed : Bool
  samples : String → Option ChData

/-- Point update of the samples dictionary. -/
def updateSamples (m : String → Option ChData) (ch : String) (v : Option ChData) :
    String → Option ChData :=
  fun c => if c = ch then v else m c

/-- Number of accumulated samples of one channel entry. -/
def optLen : Option ChData → Nat
  | Option.none => 0
  | some d => d.samples.length

/-- The per-channel body of the read loop (run, lines 139-156):
```
s = self._cape.read_capture_buffer(self._slot, ch)
if s is None:
    ...; self._failed = True
if self._samples[ch] is not None:
    self._samples[ch]["samples"] = np.append(self._samples[ch]["samples"], s["samples"])
else:
    self._samples[ch] = {}
    self._samples[ch]["failed"] = False
    self._samples[ch]["unit"] = s["unit"]
    self._samples[ch]["samples"] = s["samples"]
```
Note that after detecting `s is None` the source still evaluates
`s["samples"]` / `s["unit"]`, which raises `TypeError` when `s` is
`None` or `False`. -/
def readChannelStep (st : RunResult) (ch : String) (s : RdVal) : Except PyExc RunResult :=
  let failed1 := if s = RdVal.vnone then true else st.failed
  match st.samples ch, s with
  | some d, RdVal.vdict nd =>
      Except.ok { st with
          failed := failed1,
          samples := updateSamples st.samples ch
            (some { d with samples := d.samples ++ nd.samples }) }
  | some _, _ => Except.error PyExc.typeError
  | Option.none, RdVal.vdict nd =>
      Except.ok { st with
          failed := failed1,
          samples := updateSamples st.samples ch
            (some { failed := false, unit := nd.unit, samples := nd.samples }) }
  | Option.none, _ => Except.error PyExc.typeError

/-- Start of a cycle (run, lines 131-136):
`ret = self._cape.refill_capture_buffer(self._slot)` followed by
`if ret != True: ...; self._failed = True`. -/
def cycleStart (st : RunResult) (cy : CaptureCycle) : RunResult :=
  { st with failed := if cy.refill = true then st.failed else true }

/-- One full cycle of the run loop: refill check, then the read loop
over the channels in declared order. -/
def runCycle (channels : List String) (st : RunResult) (cy : CaptureCycle) :
    Except PyExc RunResult :=
  channels.foldlM (fun s ch => readChannelStep s ch (cy.read ch)) (cycleStart st cy)

/-- Initial state of `run` (lines 115-125): failed = False and every
channel's entry set to `None`. -/
def runInit (slot : Nat) (duration : Nat) (channels : List String) : RunResult :=
  { slot := slot, duration := duration, channels := channels,
    failed := false, samples := fun _ => Option.none }

/-- The value of the leaked loop variable `ch` after
`for ch in self._channels` has run: the last element of the channel
list (unbound, hence `NameError`, if the list is empty). -/
def lastChannel : List String → Option String
  | [] => Option.none
  | [c] => some c
  | _ :: c :: cs => lastChannel (c :: cs)

/-- The statement after the loop (run, line 160):
`self._samples[ch]["failed"] = self._failed`, with `ch` the leaked
loop variable, i.e. the LAST captured channel only. Raises `NameError`
if the channel list was empty and `TypeError` if that channel's entry
is still `None` (zero cycles ran). -/
def runFinalize (channels : List String) (st : RunResult) : Except PyExc RunResult :=
  match lastChannel channels with
  | Option.none => Except.error PyExc.nameError
  | some ch =>
      match st.samples ch with
      | some d =>
          Except.ok { st with
            samples := updateSamples st.samples ch (some { d with failed := st.failed }) }
      | Option.none => Except.error PyExc.typeError

/-- `IIODeviceCaptureThread.run`, for the given finite schedule of
cycles: initialise, execute every cycle, then write the aggregate
failure flag into the last channel's entry. -/
def runCapture (slot : Nat) (duration : Nat) (channels : List String)
    (script : List CaptureCycle) : Except PyExc RunResult := do
  let stN ← script.foldlM (runCycle channels) (runInit slot duration channels)
  runFinalize channels stN

/-- The channel list `_CAPTURED_CHANNELS = ["Time", "Vbat", "Ishunt"]`
used by `pyacmecapture.main`. -/
def chans : List String := ["Time", "Vbat", "Ishunt"]

/-- A cycle whose refill succeeds but whose read of the "Time" channel
returns `None` (the probe caught a read error), the other reads
succeeding. -/
def cycleReadNone : CaptureCycle :=
  { refill := true,
    read := fun ch =>
      if ch = "Time" then RdVal.vnone
      else RdVal.vdict { channel := ch, unit := "x", samples := [1] } }

/-- A cycle whose refill fails and whose reads all succeed with two
samples per channel. -/
def cycleRefillFail : CaptureCycle :=
  { refill := false,
    read := fun ch => RdVal.vdict { channel := ch, unit := "x", samples := [1, 2] } }

/-- A fully successful cycle delivering two samples per channel. -/
def cycleAllOk : CaptureCycle :=
  { refill := true,
    read := fun ch => RdVal.vdict { channel := ch, unit := "x", samples := [1, 2] } }

/-- The "failed" flag of one channel of a completed run, `none` if the
run raised or the channel has no entry. -/
def capFailFlag (r : Except PyExc RunResult) (ch : String) : Option Bool :=
  match r with
  | Except.error _ => Option.none
  | Except.ok res => (res.samples ch).map ChData.failed

/-- The aggregate `self._failed` flag of a completed run, `none` if
the run raised. -/
def capAggFlag (r : Except PyExc RunResult) : Option Bool :=
  match r with
  | Except.error _ => Option.none
  | Except.ok res => some res.failed

/- ------------------------------------------------------------------ -/
/- Capture thread configuration                                       -/
/- (iiodevicecapturethread.py, configure_capture, lines 63-102)       -/
/- ------------------------------------------------------------------ -/

/-- The cape behaviour `configure_capture` depends on: the boolean
results of the four cape calls it makes for its slot. -/
structure CapeCfg where
  oversamplingOk : Bool
  asyncReadsOk : Bool
  channelOk : String → Bool
  allocOk : Bool

/-- The `for ch in self._channels` enable loop of `configure_capture`
(lines 88-95): returns `False` on the first channel whose
`enable_capture_channel` call fails, `True` if all succeed. -/
def enableChannels (cape : CapeCfg) : List String → Bool
  | [] => true
  | ch :: rest => if cape.channelOk ch = false then false else enableChannels cape rest

/-- `IIODeviceCaptureThread.configure_capture` (lines 63-102):
oversampling, async reads, channel enables, then buffer allocation,
each aborting with `False` on failure. The first component is the
returned bool; the second records whether
`allocate_capture_buffer` was invoked (the step the claim says must
not happen for an empty channel list). -/
def configure_capture (cape : CapeCfg) (channels : List String) : Bool × Bool :=
  if cape.oversamplingOk = false then (false, false)
  else if cape.asyncReadsOk = false then (false, false)
  else if enableChannels cape channels = false then (false, false)
  else (cape.allocOk, true)

/-- A cape on which every configuration call succeeds. -/
def allOkCape : CapeCfg :=
  { oversamplingOk := true, asyncReadsOk := true,
    channelOk := fun _ => true, allocOk := true }

/- ------------------------------------------------------------------ -/
/- Thread build/start phase (pyacmecapture.py, main, lines 516-545)   -/
/- ------------------------------------------------------------------ -/

/-- Outcome of creating and configuring one slot's capture thread in
`main`'s build loop: configure returned True, returned False, or the
creation/configuration raised. -/
inductive CfgOutcome where
  | ok
  | fail
  | raised
deriving DecidableEq

/-- The `for i in args.slots` build loop of `main` (lines 519-533):
on the first failed or raising configuration the script calls
`exit_with_error` (terminating before the start loop); otherwise it
returns the configured threads, identified here by their slots. -/
def configureThreads (cfg : Nat → CfgOutcome) : List Nat → Option (List Nat)
  | [] => some []
  | s :: rest =>
      match cfg s with
      | CfgOutcome.ok => (configureThreads cfg rest).map (fun ts => s :: ts)
      | CfgOutcome.fail => Option.none
      | CfgOutcome.raised => Option.none

/-- The sessions whose `thread.start()` is reached (main, lines
537-543): exactly the built threads, and none at all when the build
loop exited the script. -/
def startedSessions (cfg : Nat → CfgOutcome) (slots : List Nat) : List Nat :=
  match configureThreads cfg slots with
  | some ts => ts
  | Option.none => []

/- ------------------------------------------------------------------ -/
/- Cape per-slot operations (iioacmecape.py, lines 246-435)           -/
/- ------------------------------------------------------------------ -/

/-- Outcome of calling one method on an `IIOAcmeProbe`: a returned
value, or an exception escaping the probe method. -/
inductive POut (α : Type) where
  | ok (v : α)
  | raise

/-- Behaviour of the probe object an `IIOAcmeCape` slot holds, one
field per probe method the cape wrappers forward to. -/
structure ProbeModel where
  enableChannel : String → Bool → POut Bool
  setOversampling : Nat → POut Bool
  enableAsyncReads : Bool → POut Bool
  allocBuffer : Nat → POut Bool
  refillBuffer : POut Bool
  readBuffer : String → POut (Option ReadDict)

/-- Python list indexing `l[i]` with a possibly negative index: a
negative index within `-len l` counts from the end; anything else
raises `IndexError` (modelled by `none`). This is the semantics of
`self._slots[slot - 1]` in every cape wrapper. -/
def pyIndex {α : Type} (l : List α) (i : ℤ) : Option α :=
  if 0 ≤ i then l.get? i.toNat
  else if 0 ≤ (l.length : ℤ) + i then l.get? ((l.length : ℤ) + i).toNat
  else Option.none

/-- The `try` body shared by the five boolean cape wrappers:
`return self._slots[slot - 1].method(...)`. An out-of-range index
raises `IndexError`, an empty slot (`None`) raises `AttributeError`,
and the probe call itself may raise. -/
def capeBody (slots : List (Option ProbeModel)) (slot : ℤ)
    (f : ProbeModel → POut Bool) : Except PyExc Bool :=
  match pyIndex slots (slot - 1) with
  | Option.none => Except.error PyExc.indexError
  | some Option.none => Except.error PyExc.attributeError
  | some (some p) =>
      match f p with
      | POut.ok v => Except.ok v
      | POut.raise => Except.error PyExc.probeError

/-- The `except AttributeError: return False` / `except: return False`
handlers wrapped around `capeBody`: every exception becomes `False`. -/
def capeCall (slots : List (Option ProbeModel)) (slot : ℤ)
    (f : ProbeModel → POut Bool) : Except PyExc Bool :=
  match capeBody slots slot f with
  | Except.ok v => Except.ok v
  | Except.error _ => Except.ok false

/-- `IIOAcmeCape.enable_capture_channel` (lines 246-268). -/
def cape_enable_capture_channel (slots : List (Option ProbeModel)) (slot : ℤ)
    (ch : String) (en : Bool) : Except PyExc Bool :=
  capeCall slots slot (fun p => p.enableChannel ch en)

/-- `IIOAcmeCape.set_oversampling_ratio` (lines 270-291). -/
def cape_set_oversampling (slots : List (Option ProbeModel)) (slot : ℤ)
    (r : Nat) : Except PyExc Bool :=
  capeCall slots slot (fun p => p.setOversampling r)

/-- `IIOAcmeCape.enable_asynchronous_reads` (lines 293-315). -/
def cape_enable_asynchronous_reads (slots : List (Option ProbeModel)) (slot : ℤ)
    (en : Bool) : Except PyExc Bool :=
  capeCall slots slot (fun p => p.enableAsyncReads en)

/-- `IIOAcmeCape.allocate_capture_buffer` (lines 363-386). -/
def cape_allocate_capture_buffer (slots : List (Option ProbeModel)) (slot : ℤ)
    (n : Nat) : Except PyExc Bool :=
  capeCall slots slot (fun p => p.allocBuffer n)

/-- `IIOAcmeCape.refill_capture_buffer` (lines 388-408). -/
def cape_refill_capture_buffer (slots : List (Option ProbeModel)) (slot : ℤ) :
    Except PyExc Bool :=
  capeCall slots slot (fun p => p.refillBuffer)

/-- The `try` body of `IIOAcmeCape.read_capture_buffer`:
`return self._slots[slot - 1].read_capture_buffer(channel)`, forwarding
the probe's dictionary or its `None`. -/
def capeReadBody (slots : List (Option ProbeModel)) (slot : ℤ) (ch : String) :
    Except PyExc RdVal :=
  match pyIndex slots (slot - 1) with
  | Option.none => Except.error PyExc.indexError
  | some Option.none => Except.error PyExc.attributeError
  | some (some p) =>
      match p.readBuffer ch with
      | POut.ok (some d) => Except.ok (RdVal.vdict d)
      | POut.ok Option.none => Except.ok RdVal.vnone
      | POut.raise => Except.error PyExc.probeError

/-- `IIOAcmeCape.read_capture_buffer` (lines 410-435): forwards the
probe's dictionary (or its `None`), and returns `False` — not `None` —
when the access raises (no probe, bad index, or probe exception). -/
def cape_read_capture_buffer (slots : List (Option ProbeModel)) (slot : ℤ)
    (ch : String) : Except PyExc RdVal :=
  match capeReadBody slots slot ch with
  | Except.ok v => Except.ok v
  | Except.error _ => Except.ok RdVal.vfalse

/-- A probe on which every operation succeeds. -/
def probeAllOk : ProbeModel :=
  { enableChannel := fun _ _ => POut.ok true,
    setOversampling := fun _ => POut.ok true,
    enableAsyncReads := fun _ => POut.ok true,
    allocBuffer := fun _ => POut.ok true,
    refillBuffer := POut.ok true,
    readBuffer := fun ch => POut.ok (some { channel := ch, unit := "mV", samples := [1] }) }

/-- A probe on which every operation raises. -/
def probeRaise : ProbeModel :=
  { enableChannel := fun _ _ => POut.raise,
    setOversampling := fun _ => POut.raise,
    enableAsyncReads := fun _ => POut.raise,
    allocBuffer := fun _ => POut.raise,
    refillBuffer := POut.raise,
    readBuffer := fun _ => POut.raise }

/- ------------------------------------------------------------------ -/
/- Helper lemmas on lists                                             -/
/- ------------------------------------------------------------------ -/

theorem getD_map_lt (f : ℚ → ℚ) :
    ∀ (l : List ℚ) (i : Nat), i < l.length → ∀ (d e : ℚ),
      (l.map f).getD i d = f (l.getD i e)
  | [], i, hi, _, _ => absurd hi (by simp)
  | a :: l, 0, _, d, e => by simp
  | a :: l, i + 1, hi, d, e => by
      simp only [List.map_cons, List.getD_cons_succ]
      exact getD_map_lt f l i (by simpa using hi) d e

theorem zip_getD_mul :
    ∀ (v c : List ℚ) (i : Nat), i < v.length → v.length = c.length →
      (List.zipWith (fun a b => a * b) v c).getD i 0 = v.getD i 0 * c.getD i 0
  | [], _, i, hi, _ => absurd hi (by simp)
  | a :: v, [], i, _, hlen => absurd hlen (by simp)
  | a :: v, b :: c, 0, _, _ => by simp
  | a :: v, b :: c, i + 1, hi, hlen => by
      simp only [List.zipWith_cons_cons, List.getD_cons_succ]
      exact zip_getD_mul v c i (by simpa using hi) (by simpa using hlen)

theorem foldl_min_le_init (xs : List ℚ) : ∀ x : ℚ, xs.foldl min x ≤ x := by
  induction xs with
  | nil => intro x; simp
  | cons y ys ih =>
      intro x
      simp only [List.foldl_cons]
      exact le_trans (ih (min x y)) (min_le_left x y)

theorem foldl_min_le_mem (xs : List ℚ) :
    ∀ (x y : ℚ), y ∈ xs → xs.foldl min x ≤ y := by
  induction xs with
  | nil => intro x y hy; cases hy
  | cons z zs ih =>
      intro x y hy
      simp only [List.foldl_cons]
      rcases List.mem_cons.mp hy with h | h
      · subst h
        exact le_trans (foldl_min_le_init zs (min x y)) (min_le_right x y)
      · exact ih (min x z) y h

theorem le_foldl_max_init (xs : List ℚ) : ∀ x : ℚ, x ≤ xs.foldl max x := by
  induction xs with
  | nil => intro x; simp
  | cons y ys ih =>
      intro x
      simp only [List.foldl_cons]
      exact le_trans (le_max_left x y) (ih (max x y))

theorem le_foldl_max_mem (xs : List ℚ) :
    ∀ (x y : ℚ), y ∈ xs → y ≤ xs.foldl max x := by
  induction xs with
  | nil => intro x y hy; cases hy
  | cons z zs ih =>
      intro x y hy
      simp only [List.foldl_cons]
      rcases List.mem_cons.mp hy with h | h
      · subst h
        exact le_trans (le_max_right x y) (le_foldl_max_init zs (max x y))
      · exact ih (max x z) y h

theorem mul_len_le_sum (m : ℚ) :
    ∀ (l : List ℚ), (∀ y ∈ l, m ≤ y) → m * (l.length : ℚ) ≤ l.sum := by
  intro l
  induction l with
  | nil => intro _; simp
  | cons x xs ih =>
      intro h
      have hx : m ≤ x := h x (List.mem_cons_self x xs)
      have hxs : m * (xs.length : ℚ) ≤ xs.sum :=
        ih (fun y hy => h y (List.mem_cons_of_mem x hy))
      have hlen : ((x :: xs).length : ℚ) = (xs.length : ℚ) + 1 := by
        simp [List.length_cons]
      rw [List.sum_cons, hlen]
      calc m * ((xs.length : ℚ) + 1) = m * (xs.length : ℚ) + m := by ring
        _ ≤ xs.sum + x := add_le_add hxs hx
        _ = x + xs.sum := by ring

theorem sum_le_mul_len (m : ℚ) :
    ∀ (l : List ℚ), (∀ y ∈ l, y ≤ m) → l.sum ≤ m * (l.length : ℚ) := by
  intro l
  induction l with
  | nil => intro _; simp
  | cons x xs ih =>
      intro h
      have hx : x ≤ m := h x (List.mem_cons_self x xs)
      have hxs : xs.sum ≤ m * (xs.length : ℚ) :=
        ih (fun y hy => h y (List.mem_cons_of_mem x hy))
      have hlen : ((x :: xs).length : ℚ) = (xs.length : ℚ) + 1 := by
        simp [List.length_cons]
      rw [List.sum_cons, hlen]
      calc x + xs.sum ≤ m + m * (xs.length : ℚ) := add_le_add hx hxs
        _ = m * ((xs.length : ℚ) + 1) := by ring

theorem statRow_of_ne_nil (l : List ℚ) (h : l ≠ []) : statRowOrdered l := by
  match l, h with
  | x :: xs, _ =>
    have hlen : (0 : ℚ) < ((x :: xs).length : ℚ) := by
      exact_mod_cast Nat.succ_pos xs.length
    refine ⟨xs.foldl min x, (x :: xs).sum / ((x :: xs).length : ℚ), xs.foldl max x,
      rfl, rfl, rfl, ?_, ?_⟩
    · rw [le_div_iff₀ hlen]
      apply mul_len_le_sum
      intro y hy
      rcases List.mem_cons.mp hy with h1 | h1
      · subst h1; exact foldl_min_le_init xs y
      · exact foldl_min_le_mem xs x y h1
    · rw [div_le_iff₀ hlen]
      apply sum_le_mul_len
      intro y hy
      rcases List.mem_cons.mp hy with h1 | h1
      · subst h1; exact le_foldl_max_init xs y
      · exact le_foldl_max_mem xs x y h1

theorem powerSamples_ne_nil (v c : List ℚ) (hv : v ≠ []) (hc : c ≠ []) :
    powerSamples v c ≠ [] := by
  match v, c, hv, hc with
  | a :: v, b :: c, _, _ => simp [powerSamples]

/- ------------------------------------------------------------------ -/
/- Claims C1, C4, C8, C9 (aggregation stage)                          -/
/- ------------------------------------------------------------------ -/

/-- Claim C1 (confirmed): the aggregation stage derives
`Power[i] = Vbat[i] * Ishunt[i] / 1000` element-wise for every index,
and on the concrete scenario Voltage = [3700,3700,3700] mV,
Current = [150,150,150] mA it produces Power = [555,555,555] mW with
min = max = avg = 555 for Power, 3700 for Voltage and 150 for
Current. -/
theorem power_derivation (vbat ishunt : List ℚ)
    (hlen : vbat.length = ishunt.length) (hne : vbat ≠ []) :
    (∀ i, i < vbat.length →
        (powerSamples vbat ishunt).getD i 0 = vbat.getD i 0 * ishunt.getD i 0 / 1000) ∧
    powerSamples vbatA ishuntA = [555, 555, 555] ∧
    (amin (powerSamples vbatA ishuntA) = some 555 ∧
     amax (powerSamples vbatA ishuntA) = some 555 ∧
     average (powerSamples vbatA ishuntA) = some 555) ∧
    (amin vbatA = some 3700 ∧ amax vbatA = some 3700 ∧ average vbatA = some 3700) ∧
    (amin ishuntA = some 150 ∧ amax ishuntA = some 150 ∧ average ishuntA = some 150) := by
  have hp : powerSamples vbatA ishuntA = [555, 555, 555] := by
    norm_num [powerSamples, vbatA, ishuntA]
  refine ⟨?_, hp,
    ⟨by rw [hp]; simp [amin], by rw [hp]; simp [amax], by rw [hp]; norm_num [average]⟩,
    ⟨by simp [amin, vbatA], by simp [amax, vbatA], by norm_num [average, vbatA]⟩,
    ⟨by simp [amin, ishuntA], by simp [amax, ishuntA], by norm_num [average, ishuntA]⟩⟩
  intro i hi
  have hzl : i < (List.zipWith (fun a b => a * b) vbat ishunt).length := by
    rw [List.length_zipWith, hlen, Nat.min_self]
    rw [hlen] at hi
    exact hi
  unfold powerSamples
  rw [getD_map_lt (fun p => p / 1000) _ i hzl 0 0]
  rw [zip_getD_mul vbat ishunt i hi hlen]

/-- Witness for C1: the element-wise power formula at the concrete
probe A scenario. -/
theorem power_derivation_witness :
    (powerSamples vbatA ishuntA).getD 0 0 = vbatA.getD 0 0 * ishuntA.getD 0 0 / 1000 :=
  (power_derivation vbatA ishuntA rfl (by decide)).1 0 (by decide)

/-- Claim C4 (confirmed): for a non-empty Time sequence the
aggregation stage subtracts the first sample from every sample, so the
first normalized value is zero and every other value is the original
sample minus the original first sample. -/
theorem time_normalization (ts : List ℚ) (h : ts ≠ []) :
    ∃ ns, normalizeTime ts = some ns ∧ ns.getD 0 0 = 0 ∧ ns.length = ts.length ∧
      ∀ i, i < ts.length → ns.getD i 0 = ts.getD i 0 - ts.getD 0 0 := by
  match ts, h with
  | t0 :: rest, _ =>
    refine ⟨(t0 :: rest).map (fun t => t - t0), rfl, by simp, by simp, ?_⟩
    intro i hi
    have h1 := getD_map_lt (fun t => t - t0) (t0 :: rest) i hi 0 0
    simpa using h1

/-- Witness for C4: time normalization at a concrete sequence. -/
theorem time_normalization_witness :
    ∃ ns, normalizeTime [5, 7, 12] = some ns ∧ ns.getD 0 0 = 0 ∧
      ns.length = ([5, 7, 12] : List ℚ).length ∧
      ∀ i, i < ([5, 7, 12] : List ℚ).length →
        ns.getD i 0 = ([5, 7, 12] : List ℚ).getD i 0 - ([5, 7, 12] : List ℚ).getD 0 0 :=
  time_normalization [5, 7, 12] (by decide)

/-- Claim C8 counterexample: normalizing the raw Time sequence
[1_700_000_000_000, 1_700_000_001_000_000, 1_700_000_002_000_000] does
not yield [0, 1_000_000, 2_000_000]: the first raw sample is three
orders of magnitude smaller than the other two, so the differences are
far larger than claimed. -/
theorem time_scenario_counterexample :
    normalizeTime [1700000000000, 1700000001000000, 1700000002000000] ≠
      some [0, 1000000, 2000000] := by norm_num [normalizeTime]

/-- Claim C8 (corrected): normalizing the raw Time sequence
[1_700_000_000_000, 1_700_000_001_000_000, 1_700_000_002_000_000]
yields [0, 1_698_300_001_000_000, 1_698_300_002_000_000]. -/
theorem time_scenario_amended :
    normalizeTime [1700000000000, 1700000001000000, 1700000002000000] =
      some [0, 1698300001000000, 1698300002000000] := by norm_num [normalizeTime]

/-- Claim C9 (confirmed): for non-empty Voltage and Current sample
sequences, every statistic row the aggregation stage computes (Voltage,
Current and the derived Power) satisfies min ≤ avg ≤ max. -/
theorem stats_min_avg_max (vbat ishunt : List ℚ) (hv : vbat ≠ []) (hc : ishunt ≠ []) :
    statRowOrdered vbat ∧ statRowOrdered ishunt ∧ statRowOrdered (powerSamples vbat ishunt) :=
  ⟨statRow_of_ne_nil vbat hv, statRow_of_ne_nil ishunt hc,
   statRow_of_ne_nil (powerSamples vbat ishunt) (powerSamples_ne_nil vbat ishunt hv hc)⟩

/-- Witness for C9: ordered statistic rows at a concrete input. -/
theorem stats_min_avg_max_witness :
    statRowOrdered [3700, 3650] ∧ statRowOrdered [150] ∧
      statRowOrdered (powerSamples [3700, 3650] [150]) :=
  stats_min_avg_max [3700, 3650] [150] (by decide) (by decide)

/- ------------------------------------------------------------------ -/
/- Claims C2, C3 (run loop failure handling)                          -/
/- ------------------------------------------------------------------ -/

/-- Claim C2 (code_bug): the claim says a read failure within a cycle
sets the failure flag but does not abort the loop and `run()` returns
normally. The code instead dereferences the failed read result right
after setting the flag: with a first cycle whose "Time" read returns
`None`, `run` raises `TypeError` instead of completing. -/
theorem run_read_failure_raises :
    runCapture 1 1 chans [cycleReadNone] = Except.error PyExc.typeError := rfl

/-- Claim C3 (code_bug): after a run with one failing refill cycle the
aggregate failure flag is true, but only the LAST captured channel's
entry ("Ishunt") carries it; "Time" and "Vbat" still read false,
contradicting the claim that every captured channel's flag is true iff
some cycle failed. -/
theorem failure_flag_last_channel_only :
    capAggFlag (runCapture 1 1 chans [cycleRefillFail]) = some true ∧
    capFailFlag (runCapture 1 1 chans [cycleRefillFail]) "Time" = some false ∧
    capFailFlag (runCapture 1 1 chans [cycleRefillFail]) "Vbat" = some false ∧
    capFailFlag (runCapture 1 1 chans [cycleRefillFail]) "Ishunt" = some true :=
  ⟨rfl, rfl, rfl, rfl⟩

/- ------------------------------------------------------------------ -/
/- Claim C7 (index-aligned accumulation)                              -/
/- ------------------------------------------------------------------ -/

theorem readChannelStep_vdict (st : RunResult) (ch : String) (nd : ReadDict) :
    ∃ cd : ChData,
      readChannelStep st ch (RdVal.vdict nd) =
        Except.ok { st with samples := updateSamples st.samples ch (some cd) } ∧
      cd.samples.length = optLen (st.samples ch) + nd.samples.length := by
  unfold readChannelStep
  cases hs : st.samples ch with
  | none =>
      refine ⟨{ failed := false, unit := nd.unit, samples := nd.samples }, ?_, ?_⟩
      · simp [hs]
      · simp [hs, optLen]
  | some d =>
      refine ⟨{ d with samples := d.samples ++ nd.samples }, ?_, ?_⟩
      · simp [hs]
      · simp [hs, optLen]

theorem foldRead_ok (rd : String → RdVal) (B : Nat) :
    ∀ (cs : List String), cs.Nodup →
      (∀ ch ∈ cs, ∃ d : ReadDict, rd ch = RdVal.vdict d ∧ d.samples.length = B) →
      ∀ (st : RunResult),
        ∃ st', cs.foldlM (fun s ch => readChannelStep s ch (rd ch)) st = Except.ok st' ∧
          (∀ ch, ch ∉ cs → st'.samples ch = st.samples ch) ∧
          (∀ ch ∈ cs, ∃ cd : ChData,
            st'.samples ch = some cd ∧ cd.samples.length = optLen (st.samples ch) + B) := by
  intro cs
  induction cs with
  | nil =>
      intro _ _ st
      exact ⟨st, rfl, fun _ _ => rfl, by simp⟩
  | cons c cs ih =>
      intro hnd hrd st
      obtain ⟨d, hd, hdB⟩ := hrd c (List.mem_cons_self c cs)
      obtain ⟨cd1, hstep, hcd1⟩ := readChannelStep_vdict st c d
      have hndtail : cs.Nodup := (List.nodup_cons.mp hnd).2
      have hcnot : c ∉ cs := (List.nodup_cons.mp hnd).1
      obtain ⟨st', hfold, hout, hin⟩ :=
        ih hndtail (fun ch hch => hrd ch (List.mem_cons_of_mem c hch))
          { st with samples := updateSamples st.samples c (some cd1) }
      refine ⟨st', ?_, ?_, ?_⟩
      · have h1 : (c :: cs).foldlM (fun s ch => readChannelStep s ch (rd ch)) st
            = readChannelStep st c (rd c) >>=
                fun s1 => cs.foldlM (fun s ch => readChannelStep s ch (rd ch)) s1 := rfl
        rw [h1, hd, hstep]
        exact hfold
      · intro ch hch
        have hch2 : ch ∉ cs := fun h => hch (List.mem_cons_of_mem c h)
        have hchc : ch ≠ c := fun h => hch (h ▸ List.mem_cons_self c cs)
        rw [hout ch hch2]
        show updateSamples st.samples c (some cd1) ch = st.samples ch
        simp [updateSamples, hchc]
      · intro ch hch
        rcases List.mem_cons.mp hch with h | h
        · subst h
          refine ⟨cd1, ?_, ?_⟩
          · rw [hout ch hcnot]
            show updateSamples st.samples ch (some cd1) ch = some cd1
            simp [updateSamples]
          · rw [hcd1, hdB]
        · obtain ⟨cd, hcd, hlen⟩ := hin ch h
          refine ⟨cd, hcd, ?_⟩
          have hchc : ch ≠ c := fun he => hcnot (he ▸ h)
          rw [hlen]
          show optLen (updateSamples st.samples c (some cd1) ch) + B = optLen (st.samples ch) + B
          simp [updateSamples, hchc]

theorem scriptFold_keep (channels : List String) (hnd : channels.Nodup) (B : Nat) :
    ∀ (script : List CaptureCycle),
      (∀ cy ∈ script, ∀ ch ∈ channels,
         ∃ d : ReadDict, cy.read ch = RdVal.vdict d ∧ d.samples.length = B) →
      ∀ (st : RunResult) (L : Nat),
        (∀ ch ∈ channels, ∃ cd : ChData, st.samples ch = some cd ∧ cd.samples.length = L) →
        ∃ st', script.foldlM (runCycle channels) st = Except.ok st' ∧
          ∀ ch ∈ channels, ∃ cd : ChData,
            st'.samples ch = some cd ∧ cd.samples.length = L + script.length * B := by
  intro script
  induction script with
  | nil =>
      intro _ st L hst
      refine ⟨st, rfl, ?_⟩
      simpa using hst
  | cons cy rest ih =>
      intro hread st L hst
      obtain ⟨st2, hfold2, _, hin⟩ :=
        foldRead_ok cy.read B channels hnd
          (hread cy (List.mem_cons_self cy rest)) (cycleStart st cy)
      have hst2 : ∀ ch ∈ channels, ∃ cd : ChData,
          st2.samples ch = some cd ∧ cd.samples.length = L + B := by
        intro ch hch
        obtain ⟨cd, hcd, hlen⟩ := hin ch hch
        obtain ⟨cd0, hcd0, hlen0⟩ := hst ch hch
        refine ⟨cd, hcd, ?_⟩
        have hopt : optLen ((cycleStart st cy).samples ch) = L := by
          show optLen (st.samples ch) = L
          rw [hcd0]
          simpa [optLen] using hlen0
        rw [hlen, hopt]
      obtain ⟨st', hfold', hout⟩ :=
        ih (fun c hc => hread c (List.mem_cons_of_mem cy hc)) st2 (L + B) hst2
      refine ⟨st', ?_, ?_⟩
      · have h1 : (cy :: rest).foldlM (runCycle channels) st
            = runCycle channels st cy >>= fun s1 => rest.foldlM (runCycle channels) s1 := rfl
        rw [h1]
        have h2 : runCycle channels st cy = Except.ok st2 := hfold2
        rw [h2]
        exact hfold'
      · intro ch hch
        obtain ⟨cd, hcd, hlen⟩ := hout ch hch
        refine ⟨cd, hcd, ?_⟩
        rw [hlen, List.length_cons, Nat.succ_mul]
        ring

theorem lastChannel_some_mem :
    ∀ (l : List String), l ≠ [] → ∃ a, lastChannel l = some a ∧ a ∈ l
  | [], h => absurd rfl h
  | [x], _ => ⟨x, by simp [lastChannel], List.mem_singleton_self x⟩
  | x :: y :: ys, _ => by
      obtain ⟨a, ha, hmem⟩ := lastChannel_some_mem (y :: ys) (by simp)
      refine ⟨a, ?_, List.mem_cons_of_mem x hmem⟩
      rw [show lastChannel (x :: y :: ys) = lastChannel (y :: ys) from rfl]
      exact ha

theorem runFinalize_eq (channels : List String) (st : RunResult) (chL : String) (d : ChData)
    (h1 : lastChannel channels = some chL) (h2 : st.samples chL = some d) :
    runFinalize channels st =
      Except.ok { st with
          samples := updateSamples st.samples chL (some { d with failed := st.failed }) } := by
  unfold runFinalize
  rw [h1]
  simp only [h2]

/-- Claim C7 (confirmed): for any run whose cycles all read one
buffer's worth (B samples) per enabled channel, the run completes and
every enabled channel's accumulated sample sequence has the same
length, namely cycles × B; moreover the derived power sequence of
equally long Voltage/Current sequences again has that same length. -/
theorem channel_lengths_aligned (channels : List String) (script : List CaptureCycle)
    (slot duration B : Nat)
    (hch : channels ≠ []) (hnd : channels.Nodup) (hsc : script ≠ [])
    (hread : ∀ cy ∈ script, ∀ ch ∈ channels,
       ∃ d : ReadDict, cy.read ch = RdVal.vdict d ∧ d.samples.length = B) :
    (∃ res, runCapture slot duration channels script = Except.ok res ∧
       ∀ ch ∈ channels, ∃ cd : ChData,
         res.samples ch = some cd ∧ cd.samples.length = script.length * B) ∧
    (∀ v c : List ℚ, v.length = c.length → (powerSamples v c).length = v.length) := by
  refine ⟨?_, ?_⟩
  · match script, hsc with
    | cy :: rest, _ =>
      obtain ⟨chL, hchL, hchLmem⟩ := lastChannel_some_mem channels hch
      obtain ⟨st2, hfold2, _, hin2⟩ :=
        foldRead_ok cy.read B channels hnd
          (hread cy (List.mem_cons_self cy rest))
          (cycleStart (runInit slot duration channels) cy)
      have hst2 : ∀ ch ∈ channels, ∃ cd : ChData,
          st2.samples ch = some cd ∧ cd.samples.length = B := by
        intro ch hch2
        obtain ⟨cd, hcd, hlen⟩ := hin2 ch hch2
        refine ⟨cd, hcd, ?_⟩
        rw [hlen]
        show optLen ((fun _ => Option.none : String → Option ChData) ch) + B = B
        simp [optLen]
      obtain ⟨stN, hfoldN, houtN⟩ :=
        scriptFold_keep channels hnd B rest
          (fun c hc => hread c (List.mem_cons_of_mem cy hc)) st2 B hst2
      have hfold : (cy :: rest).foldlM (runCycle channels) (runInit slot duration channels)
          = Except.ok stN := by
        have h1 : (cy :: rest).foldlM (runCycle channels) (runInit slot duration channels)
            = runCycle channels (runInit slot duration channels) cy >>=
                fun s1 => rest.foldlM (runCycle channels) s1 := rfl
        rw [h1]
        have h2 : runCycle channels (runInit slot duration channels) cy = Except.ok st2 :=
          hfold2
        rw [h2]
        exact hfoldN
      obtain ⟨dL, hdL, hdLlen⟩ := houtN chL hchLmem
      refine ⟨{ stN with
          samples := updateSamples stN.samples chL (some { dL with failed := stN.failed }) },
        ?_, ?_⟩
      · show runCapture slot duration channels (cy :: rest) = _
        unfold runCapture
        rw [hfold]
        show runFinalize channels stN = _
        exact runFinalize_eq channels stN chL dL hchL hdL
      · intro ch hchm
        by_cases he : ch = chL
        · subst he
          refine ⟨{ dL with failed := stN.failed }, ?_, ?_⟩
          · show updateSamples stN.samples ch (some { dL with failed := stN.failed }) ch = _
            simp [updateSamples]
          · show dL.samples.length = (cy :: rest).length * B
            rw [hdLlen, List.length_cons, Nat.succ_mul]
            ring
        · obtain ⟨cd, hcd, hlen⟩ := houtN ch hchm
          refine ⟨cd, ?_, ?_⟩
          · show updateSamples stN.samples chL (some { dL with failed := stN.failed }) ch = some cd
            simp [updateSamples, he, hcd]
          · rw [hlen, List.length_cons, Nat.succ_mul]
            ring
  · intro v c hlen
    unfold powerSamples
    rw [List.length_map, List.length_zipWith, hlen, Nat.min_self]

/-- Witness for C7: a one-cycle run over the three captured channels
with two samples per read. -/
theorem channel_lengths_aligned_witness :
    (∃ res, runCapture 1 1 chans [cycleAllOk] = Except.ok res ∧
       ∀ ch ∈ chans, ∃ cd : ChData,
         res.samples ch = some cd ∧ cd.samples.length = 1 * 2) ∧
    (∀ v c : List ℚ, v.length = c.length → (powerSamples v c).length = v.length) :=
  channel_lengths_aligned chans [cycleAllOk] 1 1 2 (by decide) (by decide)
    (List.cons_ne_nil cycleAllOk [])
    (fun cy hcy ch _ => by
      have h1 : cy = cycleAllOk := List.mem_singleton.mp hcy
      subst h1
      exact ⟨{ channel := ch, unit := "x", samples := [1, 2] }, rfl, rfl⟩)

/- ------------------------------------------------------------------ -/
/- Claim C5 (empty channel list at configure time)                    -/
/- ------------------------------------------------------------------ -/

/-- Claim C5 counterexample: on a cape whose configuration calls all
succeed, `configure_capture` with an empty channel list returns True
(success, first component) and DOES invoke the buffer allocation
(second component) — the claimed configuration error and skipped
allocation do not happen. -/
theorem configure_empty_counterexample :
    (configure_capture allOkCape []).1 = true ∧ (configure_capture allOkCape []).2 = true :=
  ⟨rfl, rfl⟩

/-- Claim C5 (corrected): `configure_capture` performs no emptiness
check on the channel list: when the oversampling and async-read steps
succeed, an empty channel list skips the enable loop, the capture
buffer is allocated, and the allocation's own result is returned. -/
theorem configure_empty_amended (cape : CapeCfg)
    (h1 : cape.oversamplingOk = true) (h2 : cape.asyncReadsOk = true) :
    configure_capture cape [] = (cape.allocOk, true) := by
  simp [configure_capture, enableChannels, h1, h2]

/-- Witness for the amended C5. -/
theorem configure_empty_amended_witness :
    configure_capture allOkCape [] = (true, true) :=
  configure_empty_amended allOkCape rfl rfl

/- ------------------------------------------------------------------ -/
/- Claim C6 (fail-fast build)                                         -/
/- ------------------------------------------------------------------ -/

theorem configureThreads_none (cfg : Nat → CfgOutcome) :
    ∀ slots : List Nat, (∃ s ∈ slots, cfg s ≠ CfgOutcome.ok) →
      configureThreads cfg slots = Option.none := by
  intro slots
  induction slots with
  | nil =>
      intro h
      obtain ⟨s, hs, _⟩ := h
      cases hs
  | cons a rest ih =>
      intro h
      obtain ⟨s, hs, hneq⟩ := h
      rcases List.mem_cons.mp hs with h1 | h1
      · subst h1
        unfold configureThreads
        cases hcfg : cfg s with
        | ok => exact absurd hcfg hneq
        | fail => rfl
        | raised => rfl
      · unfold configureThreads
        cases hcfg : cfg a with
        | ok =>
            rw [ih ⟨s, h1, hneq⟩]
            rfl
        | fail => rfl
        | raised => rfl

/-- Claim C6 (confirmed): if any slot's thread configuration fails or
raises during `main`'s build loop, the build produces no thread list
(the script exits) and no session is ever started. -/
theorem no_start_on_config_failure (cfg : Nat → CfgOutcome) (slots : List Nat)
    (h : ∃ s ∈ slots, cfg s ≠ CfgOutcome.ok) :
    configureThreads cfg slots = Option.none ∧ startedSessions cfg slots = [] := by
  have hnone := configureThreads_none cfg slots h
  refine ⟨hnone, ?_⟩
  unfold startedSessions
  rw [hnone]

/-- Witness for C6: slot 2 of three fails to configure. -/
theorem no_start_on_config_failure_witness :
    configureThreads (fun s => if s = 2 then CfgOutcome.fail else CfgOutcome.ok) [1, 2, 3] =
      Option.none ∧
    startedSessions (fun s => if s = 2 then CfgOutcome.fail else CfgOutcome.ok) [1, 2, 3] = [] :=
  no_start_on_config_failure (fun s => if s = 2 then CfgOutcome.fail else CfgOutcome.ok)
    [1, 2, 3] ⟨2, by decide, by decide⟩

/- ------------------------------------------------------------------ -/
/- Claim C10 (cape wrappers never raise)                              -/
/- ------------------------------------------------------------------ -/

theorem capeCall_ok (slots : List (Option ProbeModel)) (slot : ℤ)
    (f : ProbeModel → POut Bool) : ∃ v, capeCall slots slot f = Except.ok v := by
  unfold capeCall
  cases hcb : capeBody slots slot f with
  | ok v => exact ⟨v, rfl⟩
  | error e => exact ⟨false, rfl⟩

theorem capeRead_ok (slots : List (Option ProbeModel)) (slot : ℤ) (ch : String) :
    ∃ v, cape_read_capture_buffer slots slot ch = Except.ok v := by
  unfold cape_read_capture_buffer
  cases hcb : capeReadBody slots slot ch with
  | ok v => exact ⟨v, rfl⟩
  | error e => exact ⟨RdVal.vfalse, rfl⟩

theorem capeCall_index_miss (slots : List (Option ProbeModel)) (slot : ℤ)
    (f : ProbeModel → POut Bool) (h : pyIndex slots (slot - 1) = Option.none) :
    capeCall slots slot f = Except.ok false := by
  unfold capeCall capeBody
  rw [h]

theorem capeCall_empty_slot (slots : List (Option ProbeModel)) (slot : ℤ)
    (f : ProbeModel → POut Bool) (h : pyIndex slots (slot - 1) = some Option.none) :
    capeCall slots slot f = Except.ok false := by
  unfold capeCall capeBody
  rw [h]

theorem capeRead_index_miss (slots : List (Option ProbeModel)) (slot : ℤ) (ch : String)
    (h : pyIndex slots (slot - 1) = Option.none) :
    cape_read_capture_buffer slots slot ch = Except.ok RdVal.vfalse := by
  unfold cape_read_capture_buffer capeReadBody
  rw [h]

theorem capeRead_empty_slot (slots : List (Option ProbeModel)) (slot : ℤ) (ch : String)
    (h : pyIndex slots (slot - 1) = some Option.none) :
    cape_read_capture_buffer slots slot ch = Except.ok RdVal.vfalse := by
  unfold cape_read_capture_buffer capeReadBody
  rw [h]

theorem capeRead_probe_raise (slots : List (Option ProbeModel)) (slot : ℤ) (ch : String)
    (p : ProbeModel) (h1 : pyIndex slots (slot - 1) = some (some p))
    (h2 : p.readBuffer ch = POut.raise) :
    cape_read_capture_buffer slots slot ch = Except.ok RdVal.vfalse := by
  have hbody : capeReadBody slots slot ch = Except.error PyExc.probeError := by
    unfold capeReadBody
    rw [h1]
    simp only [h2]
  unfold cape_read_capture_buffer
  rw [hbody]

/-- Claim C10 counterexample: with a single attached probe, calling
`enable_capture_channel` for the out-of-range slot value 0 evaluates
`self._slots[-1]`, which Python resolves to the LAST list element, so
the call is forwarded to that probe and returns True — a success, not
the claimed error value. -/
theorem slot_zero_alias_counterexample :
    cape_enable_capture_channel [some probeAllOk] 0 "Vbat" true = Except.ok true := rfl

/-- Claim C10 (corrected): every per-slot cape operation is total and
never propagates an exception; a slot whose Python index `slot - 1`
falls outside the probe list, or maps to an empty slot, yields False
(and `read_capture_buffer` yields False — not None — when the probe
access raises). The original claim's "error value for every
out-of-range slot" fails only for non-positive slots whose negative
index wraps onto an attached probe. -/
theorem cape_ops_never_raise (slots : List (Option ProbeModel)) (slot : ℤ) (ch : String)
    (en : Bool) (r n : Nat) :
    (∃ v, cape_enable_capture_channel slots slot ch en = Except.ok v) ∧
    (∃ v, cape_set_oversampling slots slot r = Except.ok v) ∧
    (∃ v, cape_enable_asynchronous_reads slots slot en = Except.ok v) ∧
    (∃ v, cape_allocate_capture_buffer slots slot n = Except.ok v) ∧
    (∃ v, cape_refill_capture_buffer slots slot = Except.ok v) ∧
    (∃ v, cape_read_capture_buffer slots slot ch = Except.ok v) ∧
    (pyIndex slots (slot - 1) = Option.none →
       cape_enable_capture_channel slots slot ch en = Except.ok false ∧
       cape_read_capture_buffer slots slot ch = Except.ok RdVal.vfalse) ∧
    (pyIndex slots (slot - 1) = some Option.none →
       cape_enable_capture_channel slots slot ch en = Except.ok false ∧
       cape_read_capture_buffer slots slot ch = Except.ok RdVal.vfalse) ∧
    (∀ p, pyIndex slots (slot - 1) = some (some p) → p.readBuffer ch = POut.raise →
       cape_read_capture_buffer slots slot ch = Except.ok RdVal.vfalse) := by
  refine ⟨capeCall_ok slots slot _, capeCall_ok slots slot _, capeCall_ok slots slot _,
    capeCall_ok slots slot _, capeCall_ok slots slot _, capeRead_ok slots slot ch,
    ?_, ?_, ?_⟩
  · intro h
    exact ⟨capeCall_index_miss slots slot _ h, capeRead_index_miss slots slot ch h⟩
  · intro h
    exact ⟨capeCall_empty_slot slots slot _ h, capeRead_empty_slot slots slot ch h⟩
  · intro p h1 h2
    exact capeRead_probe_raise slots slot ch p h1 h2

/-- Witness for the amended C10: a probe whose read raises makes the
cape read wrapper return False. -/
theorem cape_ops_never_raise_witness :
    cape_read_capture_buffer [some probeRaise] 1 "Vbat" = Except.ok RdVal.vfalse :=
  (cape_ops_never_raise [some probeRaise] 1 "Vbat" true 1 127).2.2.2.2.2.2.2.2
    probeRaise rfl rfl
